import Mathlib

/-!
Verification of the curlpit release-artifact installer pipeline.

Strings are modelled as lists of characters (`Str`), so that the string
operations used by the installer (lowercasing, prefix tests, concatenation,
trailing-slash stripping) are plain recursive functions amenable to proof.
Each definition below is a shallow embedding of a function of the repository;
the file it comes from is named in its doc comment.
-/

/-- Model of a JavaScript string: a list of characters. -/
abbrev Str : Type := List Char

/-- Embedding of `value.toLowerCase()` (ASCII as used by the alias tables). -/
def lower (s : Str) : Str := s.map Char.toLower

/-- Embedding of `s.startsWith(pre)`. -/
def startsWithStr : Str → Str → Bool
  | _, [] => true
  | [], _ :: _ => false
  | c :: s, p => match p with
    | [] => true
    | q :: ps => (c == q) && startsWithStr s ps

/-- Substring containment test (used to state what an error message carries). -/
def containsSub : Str → Str → Bool
  | [], pat => startsWithStr [] pat
  | c :: t, pat => startsWithStr (c :: t) pat || containsSub t pat

/-- Embedding of `path.join(dir, name)` for the POSIX-style joins the
installer performs. -/
def pathJoin (d n : Str) : Str := d ++ (("/").data) ++ n

/- ### Platform / architecture normalizer — packages/scripts/src/platform.ts -/

/-- The closed set of platform tags (`types.ts`). -/
inductive NormalizedPlatform : Type where
  | darwin
  | linux
  | win32
deriving DecidableEq

/-- The closed set of architecture tags (`types.ts`). -/
inductive NormalizedArch : Type where
  | x64
  | arm64
deriving DecidableEq

/-- Embedding of the `PLATFORM_ALIASES` record lookup from platform.ts. -/
def platformAliases (s : Str) : Option NormalizedPlatform :=
  if s = (("darwin").data) then some NormalizedPlatform.darwin
  else if s = (("macos").data) then some NormalizedPlatform.darwin
  else if s = (("macosx").data) then some NormalizedPlatform.darwin
  else if s = (("osx").data) then some NormalizedPlatform.darwin
  else if s = (("linux").data) then some NormalizedPlatform.linux
  else if s = (("win32").data) then some NormalizedPlatform.win32
  else if s = (("windows").data) then some NormalizedPlatform.win32
  else none

/-- Embedding of the `ARCH_ALIASES` record lookup from platform.ts. -/
def archAliases (s : Str) : Option NormalizedArch :=
  if s = (("x64").data) then some NormalizedArch.x64
  else if s = (("amd64").data) then some NormalizedArch.x64
  else if s = (("x86_64").data) then some NormalizedArch.x64
  else if s = (("arm64").data) then some NormalizedArch.arm64
  else if s = (("aarch64").data) then some NormalizedArch.arm64
  else none

/-- `normalizePlatform` from platform.ts: `undefined`/empty input and table
misses yield `none`; otherwise the lowercased value is looked up. -/
def normalizePlatform (value : Option Str) : Option NormalizedPlatform :=
  match value with
  | none => none
  | some v => if v = ([] : Str) then none else platformAliases (lower v)

/-- `normalizeArch` from platform.ts. -/
def normalizeArch (value : Option Str) : Option NormalizedArch :=
  match value with
  | none => none
  | some v => if v = ([] : Str) then none else archAliases (lower v)

/-- `normalizePlatformOrThrow` from platform.ts. -/
def normalizePlatformOrThrow (v : Str) : Except Str NormalizedPlatform :=
  match normalizePlatform (some v) with
  | some p => Except.ok p
  | none => Except.error ((("Unsupported platform: ").data) ++ v)

/-- `normalizeArchOrThrow` from platform.ts. -/
def normalizeArchOrThrow (v : Str) : Except Str NormalizedArch :=
  match normalizeArch (some v) with
  | some a => Except.ok a
  | none => Except.error ((("Unsupported architecture: ").data) ++ v)

/- ### Target matrix — packages/scripts/src/targets.ts -/

/-- `TargetDescriptor` from types.ts. -/
structure TargetDescriptor : Type where
  artifact : Str
  binaryName : Str
deriving DecidableEq

/-- `TARGET_MATRIX` / `resolveTarget` from targets.ts: the static table of
supported (platform, architecture) pairs. `win32`/`arm64` has no entry. -/
def resolveTarget (p : NormalizedPlatform) (a : NormalizedArch) :
    Option TargetDescriptor :=
  match p, a with
  | NormalizedPlatform.darwin, NormalizedArch.arm64 =>
      some { artifact := (("curlpit-aarch64-apple-darwin.tar.xz").data),
             binaryName := (("curlpit").data) }
  | NormalizedPlatform.darwin, NormalizedArch.x64 =>
      some { artifact := (("curlpit-x86_64-apple-darwin.tar.xz").data),
             binaryName := (("curlpit").data) }
  | NormalizedPlatform.linux, NormalizedArch.x64 =>
      some { artifact := (("curlpit-x86_64-unknown-linux-gnu.tar.xz").data),
             binaryName := (("curlpit").data) }
  | NormalizedPlatform.linux, NormalizedArch.arm64 =>
      some { artifact := (("curlpit-aarch64-unknown-linux-gnu.tar.xz").data),
             binaryName := (("curlpit").data) }
  | NormalizedPlatform.win32, NormalizedArch.x64 =>
      some { artifact := (("curlpit-x86_64-pc-windows-msvc.zip").data),
             binaryName := (("curlpit.exe").data) }
  | NormalizedPlatform.win32, NormalizedArch.arm64 => none

/- ### Release planner — packages/scripts/src/release.ts -/

/-- `InstallContext` from types.ts. -/
structure InstallContext : Type where
  platform : Str
  arch : Str
  version : Str
  baseUrl : Str
  repo : Str

/-- `ReleasePlan` from types.ts. -/
structure ReleasePlan : Type where
  platform : NormalizedPlatform
  arch : NormalizedArch
  target : TargetDescriptor
  tag : Str
  artifactUrl : Str
  checksumUrl : Str
deriving DecidableEq

/-- The tag expression of release.ts line 15:
`input.version.startsWith("v") ? input.version : v-prepended`. -/
def normalizeTag (v : Str) : Str :=
  if startsWithStr v (("v").data) then v else (("v").data) ++ v

/-- The base-URL expression of release.ts line 16:
`input.baseUrl.replace(/\/$/, "")` removes one trailing slash if present. -/
def stripTrailingSlash (s : Str) : Str :=
  if s.getLast? = some '/' then s.dropLast else s

/-- `planRelease` from release.ts: normalize platform and architecture
(failing fast), resolve the target, then build the tag and the two URLs. -/
def planRelease (input : InstallContext) : Except Str ReleasePlan :=
  match normalizePlatformOrThrow input.platform with
  | Except.error e => Except.error e
  | Except.ok platform =>
    match normalizeArchOrThrow input.arch with
    | Except.error e => Except.error e
    | Except.ok arch =>
      match resolveTarget platform arch with
      | none =>
          Except.error ((("Unsupported platform/architecture combination: ").data)
            ++ input.platform ++ (("/").data) ++ input.arch)
      | some target =>
          let tag := normalizeTag input.version
          let baseUrl := stripTrailingSlash input.baseUrl
          let artifactUrl := baseUrl ++ (("/").data) ++ input.repo
            ++ (("/releases/download/").data) ++ tag ++ (("/").data) ++ target.artifact
          let checksumUrl := artifactUrl ++ ((".sha256").data)
          Except.ok { platform := platform, arch := arch, target := target,
                      tag := tag, artifactUrl := artifactUrl,
                      checksumUrl := checksumUrl }

/-- Claim C1: for platform "linux", architecture "x86_64", version "0.2.7",
repository "curlpit-sh/cli" and base URL "https://github.com", planRelease
returns a plan whose artifactUrl is the expected GitHub release URL and whose
checksumUrl is that URL with ".sha256" appended. -/
theorem C1_plan_linux_x64 :
    planRelease { platform := (("linux").data), arch := (("x86_64").data),
                  version := (("0.2.7").data),
                  baseUrl := (("https://github.com").data),
                  repo := (("curlpit-sh/cli").data) } =
      Except.ok
        { platform := NormalizedPlatform.linux, arch := NormalizedArch.x64,
          target := { artifact := (("curlpit-x86_64-unknown-linux-gnu.tar.xz").data),
                      binaryName := (("curlpit").data) },
          tag := (("v0.2.7").data),
          artifactUrl := (("https://github.com/curlpit-sh/cli/releases/download/v0.2.7/curlpit-x86_64-unknown-linux-gnu.tar.xz").data),
          checksumUrl := (("https://github.com/curlpit-sh/cli/releases/download/v0.2.7/curlpit-x86_64-unknown-linux-gnu.tar.xz").data)
            ++ ((".sha256").data) } := by
  rfl

/- ### Planner error behaviour and algebraic properties -/

/-- Claim C3 fails as stated: for the pair ("freebsd", "x64") the planner's
error names only the platform; the architecture does not occur in the
message, so the error does not name the pair. -/
theorem C3_counterexample :
    planRelease { platform := (("freebsd").data), arch := (("x64").data),
                  version := (("0.2.7").data),
                  baseUrl := (("https://github.com").data),
                  repo := (("curlpit-sh/cli").data) } =
        Except.error ((("Unsupported platform: freebsd").data))
      ∧ containsSub ((("Unsupported platform: freebsd").data)) ((("x64").data)) = false := by
  exact ⟨rfl, rfl⟩

/-- Claim C3 (amended): planRelease fails, purely and before any network
access, for every pair that does not resolve to a target; when the platform
(resp. architecture) string is unrecognized the error names only that
component, and only when both normalize but the matrix lacks an entry does
the error name the raw pair. -/
theorem C3_amended (ctx : InstallContext) :
    (normalizePlatform (some ctx.platform) = none →
        planRelease ctx =
          Except.error ((("Unsupported platform: ").data) ++ ctx.platform))
    ∧ (∀ p, normalizePlatform (some ctx.platform) = some p →
        normalizeArch (some ctx.arch) = none →
        planRelease ctx =
          Except.error ((("Unsupported architecture: ").data) ++ ctx.arch))
    ∧ (∀ p a, normalizePlatform (some ctx.platform) = some p →
        normalizeArch (some ctx.arch) = some a →
        resolveTarget p a = none →
        planRelease ctx =
          Except.error ((("Unsupported platform/architecture combination: ").data)
            ++ ctx.platform ++ (("/").data) ++ ctx.arch)) := by
  refine ⟨fun hp => ?_, fun p hp ha => ?_, fun p a hp ha ht => ?_⟩
  · simp [planRelease, normalizePlatformOrThrow, hp]
  · simp [planRelease, normalizePlatformOrThrow, normalizeArchOrThrow, hp, ha]
  · simp [planRelease, normalizePlatformOrThrow, normalizeArchOrThrow, hp, ha, ht]

/-- Witness for C3_amended: the pair ("windows", "arm64") normalizes on both
components but has no matrix entry, and the error names exactly that pair. -/
theorem C3_amended_witness :
    planRelease { platform := (("windows").data), arch := (("arm64").data),
                  version := (("0.2.7").data),
                  baseUrl := (("https://github.com").data),
                  repo := (("curlpit-sh/cli").data) } =
      Except.error ((("Unsupported platform/architecture combination: ").data)
        ++ (("windows").data) ++ (("/").data) ++ (("arm64").data)) :=
  (C3_amended _).2.2 NormalizedPlatform.win32 NormalizedArch.arm64 rfl rfl rfl

/-- Claim C4: the tag computed by planRelease is the version with "v"
prepended unless it already starts with "v", and tag normalization is
idempotent. -/
theorem C4_tag :
    (∀ (ctx : InstallContext) (plan : ReleasePlan),
        planRelease ctx = Except.ok plan →
        plan.tag = if startsWithStr ctx.version (("v").data) then ctx.version
                   else (("v").data) ++ ctx.version)
    ∧ (∀ v : Str, normalizeTag (normalizeTag v) = normalizeTag v) := by
  constructor
  · intro ctx plan h
    unfold planRelease at h
    split at h
    · exact absurd h (by simp)
    · split at h
      · exact absurd h (by simp)
      · split at h
        · exact absurd h (by simp)
        · simp only [Except.ok.injEq] at h
          subst h
          rfl
  · intro v
    by_cases hv : startsWithStr v (("v").data) = true
    · simp [normalizeTag, hv]
    · have h2 : startsWithStr ('v' :: v) ['v'] = true := by
        cases v <;> simp [startsWithStr]
      simp [normalizeTag, hv, h2]

/-- The end-to-end context of the spec's scenario, used by witnesses. -/
def sampleCtx : InstallContext :=
  { platform := (("linux").data), arch := (("x86_64").data),
    version := (("0.2.7").data),
    baseUrl := (("https://github.com").data),
    repo := (("curlpit-sh/cli").data) }

/-- The plan produced for `sampleCtx`, used by witnesses. -/
def samplePlan : ReleasePlan :=
  { platform := NormalizedPlatform.linux, arch := NormalizedArch.x64,
    target := { artifact := (("curlpit-x86_64-unknown-linux-gnu.tar.xz").data),
                binaryName := (("curlpit").data) },
    tag := (("v0.2.7").data),
    artifactUrl := (("https://github.com/curlpit-sh/cli/releases/download/v0.2.7/curlpit-x86_64-unknown-linux-gnu.tar.xz").data),
    checksumUrl := (("https://github.com/curlpit-sh/cli/releases/download/v0.2.7/curlpit-x86_64-unknown-linux-gnu.tar.xz.sha256").data) }

/-- Witness for C4_tag: at the concrete linux/x86_64 context the planner
succeeds and its tag is "v" prepended to "0.2.7". -/
theorem C4_tag_witness :
    planRelease sampleCtx = Except.ok samplePlan
      ∧ samplePlan.tag =
          if startsWithStr sampleCtx.version (("v").data) then sampleCtx.version
          else (("v").data) ++ sampleCtx.version :=
  ⟨rfl, C4_tag.1 sampleCtx samplePlan rfl⟩

/-- One trailing slash of the base URL is stripped: appending "/" to a base
not ending in "/" leaves the planner's input to URL joining unchanged. -/
theorem stripTrailingSlash_append_slash (b : Str) :
    stripTrailingSlash (b ++ (("/").data)) = b := by
  have h1 : (b ++ (("/").data)).getLast? = some '/' := by
    simp [stripTrailingSlash, List.getLast?_concat]
  simp [stripTrailingSlash, h1, List.dropLast_concat]

/-- A base URL not ending in "/" is left unchanged by slash stripping. -/
theorem stripTrailingSlash_no_slash (b : Str) (h : b.getLast? ≠ some '/') :
    stripTrailingSlash b = b := by
  simp [stripTrailingSlash, h]

/-- Claim C10: for every base URL not ending in "/", planRelease returns the
same result (hence identical artifact and checksum URLs) whether given the
base URL or the base URL with one trailing "/" appended. -/
theorem C10_trailing_slash (ctx : InstallContext)
    (h : ctx.baseUrl.getLast? ≠ some '/') :
    planRelease { ctx with baseUrl := ctx.baseUrl ++ (("/").data) } =
      planRelease ctx := by
  obtain ⟨pf, af, vf, bf, rf⟩ := ctx
  simp only [planRelease]
  rw [stripTrailingSlash_append_slash, stripTrailingSlash_no_slash bf h]

/-- Witness for C10_trailing_slash at the concrete GitHub base URL. -/
theorem C10_trailing_slash_witness :
    planRelease { sampleCtx with baseUrl := sampleCtx.baseUrl ++ (("/").data) } =
      planRelease sampleCtx :=
  C10_trailing_slash sampleCtx (by decide)

/- ### Normalizer alias behaviour — packages/scripts/src/platform.ts -/

/-- Claim C8: the loose normalizers signal unsupported input with `none`
(never an error), and the alias tables map the common spellings,
case-insensitively, onto the enumerated tags; "windows" gets the same tag
as the native "win32" identifier. -/
theorem C8_normalization :
    (∀ s : Str, platformAliases (lower s) = none →
        normalizePlatform (some s) = none)
    ∧ (∀ s : Str, archAliases (lower s) = none →
        normalizeArch (some s) = none)
    ∧ (normalizeArch (some ((("x86_64").data))) = some NormalizedArch.x64
      ∧ normalizeArch (some ((("X86_64").data))) = some NormalizedArch.x64
      ∧ normalizeArch (some ((("amd64").data))) = some NormalizedArch.x64
      ∧ normalizeArch (some ((("AMD64").data))) = some NormalizedArch.x64
      ∧ normalizeArch (some ((("aarch64").data))) = some NormalizedArch.arm64
      ∧ normalizeArch (some ((("Aarch64").data))) = some NormalizedArch.arm64
      ∧ normalizeArch (some ((("arm64").data))) = some NormalizedArch.arm64
      ∧ normalizeArch (some ((("ARM64").data))) = some NormalizedArch.arm64
      ∧ normalizePlatform (some ((("macos").data))) = some NormalizedPlatform.darwin
      ∧ normalizePlatform (some ((("MacOS").data))) = some NormalizedPlatform.darwin
      ∧ normalizePlatform (some ((("osx").data))) = some NormalizedPlatform.darwin
      ∧ normalizePlatform (some ((("OSX").data))) = some NormalizedPlatform.darwin
      ∧ normalizePlatform (some ((("windows").data))) =
          normalizePlatform (some ((("win32").data)))
      ∧ normalizePlatform (some ((("windows").data))) = some NormalizedPlatform.win32) := by
  refine ⟨fun s h => ?_, fun s h => ?_, ?_⟩
  · by_cases hs : s = ([] : Str) <;> simp [normalizePlatform, hs, h]
  · by_cases hs : s = ([] : Str) <;> simp [normalizeArch, hs, h]
  · decide

/-- Witness for C8_normalization: the unrecognized platform "solaris" yields
the unsupported signal `none`, not an error. -/
theorem C8_normalization_witness :
    normalizePlatform (some ((("solaris").data))) = none :=
  C8_normalization.1 ((("solaris").data)) rfl

/- ### String-containment helper lemmas -/

/-- A list starts with itself followed by anything. -/
theorem startsWithStr_append (p r : Str) : startsWithStr (p ++ r) p = true := by
  induction p with
  | nil => cases r <;> simp [startsWithStr]
  | cons c p ih => simp [startsWithStr, ih]

/-- Containment follows from a successful prefix test. -/
theorem containsSub_of_starts (s pat : Str) (h : startsWithStr s pat = true) :
    containsSub s pat = true := by
  cases s <;> simp [containsSub, h]

/-- A list contains any of its contiguous middle segments. -/
theorem containsSub_mid (pre pat rest : Str) :
    containsSub (pre ++ pat ++ rest) pat = true := by
  induction pre with
  | nil =>
      simp only [List.nil_append]
      exact containsSub_of_starts _ _ (startsWithStr_append pat rest)
  | cons c pre ih =>
      have ih2 : containsSub (pre ++ (pat ++ rest)) pat = true := by
        simpa [List.append_assoc] using ih
      simp [containsSub, ih2]

/-- A list contains its own suffixes. -/
theorem containsSub_fin (pre pat : Str) : containsSub (pre ++ pat) pat = true := by
  have h := containsSub_mid pre pat []
  simpa using h

/- ### Checksum verifier — packages/scripts/src/download.ts -/

/-- `verifyChecksum` from download.ts. The streaming SHA-256 hex digest is
computed by node:crypto (external to this repository), so the digest
function is a parameter of the model; the comparison and the error message
are the embedded code. -/
def verifyChecksum (digestHex : List Nat → Str) (fileContents : List Nat)
    (expected : Str) : Except Str Unit :=
  let actual := digestHex fileContents
  if actual = expected then Except.ok ()
  else
    Except.error ((("Checksum mismatch: expected ").data) ++ expected
      ++ ((", got ").data) ++ actual)

/-- Claim C5: verification succeeds exactly when the computed digest equals
the expected digest, and on inequality it fails with a mismatch message that
contains both digests. -/
theorem C5_verifyChecksum (digestHex : List Nat → Str) (contents : List Nat)
    (expected : Str) :
    (verifyChecksum digestHex contents expected = Except.ok () ↔
        digestHex contents = expected)
    ∧ (digestHex contents ≠ expected →
        verifyChecksum digestHex contents expected =
          Except.error ((("Checksum mismatch: expected ").data) ++ expected
            ++ ((", got ").data) ++ digestHex contents)
        ∧ containsSub ((("Checksum mismatch: expected ").data) ++ expected
            ++ ((", got ").data) ++ digestHex contents) expected = true
        ∧ containsSub ((("Checksum mismatch: expected ").data) ++ expected
            ++ ((", got ").data) ++ digestHex contents) (digestHex contents) = true) := by
  constructor
  · by_cases h : digestHex contents = expected <;> simp [verifyChecksum, h]
  · intro h
    refine ⟨by simp [verifyChecksum, h], ?_, ?_⟩
    · have hm := containsSub_mid ((("Checksum mismatch: expected ").data)) expected
        (((", got ").data) ++ digestHex contents)
      simpa [List.append_assoc] using hm
    · exact containsSub_fin _ _

/-- Witness for C5_verifyChecksum: a digest "ab" differing from the expected
"cd" produces the mismatch error carrying both digests. -/
theorem C5_verifyChecksum_witness :
    verifyChecksum (fun _ => (("ab").data)) [] ((("cd").data)) =
      Except.error ((("Checksum mismatch: expected ").data) ++ ((("cd").data))
        ++ ((", got ").data) ++ (("ab").data)) :=
  ((C5_verifyChecksum (fun _ => (("ab").data)) [] ((("cd").data))).2 (by decide)).1

/- ### Local-binary installer — packages/scripts/src/filesystem.ts -/

/-- A file in the model file system: its bytes and its executable bit. -/
structure FileData : Type where
  contents : List Nat
  exec : Bool
deriving DecidableEq

/-- The model file system: an association list from paths to files, with
the head shadowing later entries (so insertion overwrites). -/
abbrev FileSystem : Type := List (Str × FileData)

/-- Path lookup in the model file system. -/
def lookupFile : FileSystem → Str → Option FileData
  | [], _ => none
  | (p, f) :: rest, q => if p = q then some f else lookupFile rest q

/-- Create or overwrite a file. -/
def setFile (fs : FileSystem) (p : Str) (f : FileData) : FileSystem :=
  (p, f) :: fs

/-- `isExecutable` from filesystem.ts: `access(path, X_OK)` succeeds exactly
for an existing file whose executable bit is set. -/
def isExecutable (fs : FileSystem) (p : Str) : Bool :=
  match lookupFile fs p with
  | some f => f.exec
  | none => false

/-- `copyFile(src, dst)`: duplicate the source file at the destination. -/
def copyFile (fs : FileSystem) (src dst : Str) : FileSystem :=
  match lookupFile fs src with
  | some f => setFile fs dst f
  | none => fs

/-- `chmod(path, 0o755)`: set the executable bit. -/
def chmod755 (fs : FileSystem) (p : Str) : FileSystem :=
  match lookupFile fs p with
  | some f => setFile fs p { f with exec := true }
  | none => fs

/-- `installLocalBinary` from filesystem.ts: resolve the source, require it
to be executable, then copy it to destinationDir/binaryName and chmod it
when requested. Returns the primary outcome plus the resulting file system
(unchanged on failure). -/
def installLocalBinary (fs : FileSystem) (sourcePath destinationDir binaryName : Str)
    (makeExec : Bool) : Except Str Str × FileSystem :=
  let resolved := sourcePath
  if isExecutable fs resolved then
    let destinationPath := pathJoin destinationDir binaryName
    let fs1 := copyFile fs resolved destinationPath
    let fs2 := if makeExec then chmod755 fs1 destinationPath else fs1
    (Except.ok destinationPath, fs2)
  else
    (Except.error ((("Local binary not found or not executable: ").data) ++ resolved), fs)

/-- Claim C6: a missing or non-executable source fails with a descriptive
error and leaves the file system untouched; an executable source is copied
byte-for-byte to destinationDir/binaryName and ends up executable. -/
theorem C6_installLocalBinary (fs : FileSystem) (src dir name : Str) (mk : Bool) :
    (isExecutable fs src = false →
        installLocalBinary fs src dir name mk =
          (Except.error ((("Local binary not found or not executable: ").data) ++ src), fs))
    ∧ (∀ f : FileData, lookupFile fs src = some f → f.exec = true →
        (installLocalBinary fs src dir name mk).1 = Except.ok (pathJoin dir name)
        ∧ lookupFile (installLocalBinary fs src dir name mk).2 (pathJoin dir name)
            = some { contents := f.contents, exec := true }) := by
  constructor
  · intro h
    simp [installLocalBinary, h]
  · intro f hf hx
    obtain ⟨fc, fe⟩ := f
    simp only at hx
    subst hx
    have hex : isExecutable fs src = true := by simp [isExecutable, hf]
    cases mk <;>
      simp [installLocalBinary, hex, copyFile, hf, chmod755, setFile, lookupFile]

/-- A one-file model file system holding an executable tool. -/
def fsW : FileSystem :=
  [((("/usr/local/bin/tool").data), { contents := [7, 7, 7], exec := true })]

/-- Witness for C6_installLocalBinary: installing the executable tool from
`fsW` succeeds and the destination holds an executable byte-for-byte copy. -/
theorem C6_installLocalBinary_witness :
    (installLocalBinary fsW ((("/usr/local/bin/tool").data)) ((("/dest").data))
        ((("curlpit").data)) true).1 =
      Except.ok (pathJoin ((("/dest").data)) ((("curlpit").data)))
    ∧ lookupFile (installLocalBinary fsW ((("/usr/local/bin/tool").data))
        ((("/dest").data)) ((("curlpit").data)) true).2
        (pathJoin ((("/dest").data)) ((("curlpit").data)))
      = some { contents := [7, 7, 7], exec := true } :=
  (C6_installLocalBinary fsW ((("/usr/local/bin/tool").data)) ((("/dest").data))
    ((("curlpit").data)) true).2 { contents := [7, 7, 7], exec := true } rfl rfl

/- ### Temporary-workspace cleanup — filesystem.ts, npm/src/install.ts,
   the legacy npm installer and the Deno installer -/

/-- Outcome of the underlying `rm(path, { recursive, force })` call. -/
inductive RmResult : Type where
  | ok
  | failed (msg : Str)

/-- The raw removal call: a failure surfaces as an error. -/
def rmOutcome : RmResult → Except Str Unit
  | RmResult.ok => Except.ok ()
  | RmResult.failed m => Except.error m

/-- `cleanup` from packages/scripts/src/filesystem.ts: it simply awaits
`rm`; there is no catch, so a removal failure propagates. -/
def cleanup (r : RmResult) : Except Str Unit := rmOutcome r

/-- The `finally` block of main in packages/npm/src/install.ts:
`try { body } finally { await cleanup(tempDir) }` — under JavaScript
semantics an exception thrown in the finally block replaces the body's
outcome. -/
def mainFinally {α : Type} (body : Except Str α) (r : RmResult) : Except Str α :=
  match cleanup r with
  | Except.ok _ => body
  | Except.error e => Except.error e

/-- `cleanupTemp` from the legacy npm installer and the `finally` of the
Deno installer: `try { rm } catch { ignore }`. -/
def cleanupTemp (r : RmResult) : Except Str Unit :=
  match rmOutcome r with
  | Except.ok _ => Except.ok ()
  | Except.error _ => Except.ok ()

/-- A `finally` that runs the catching cleanup: the body's outcome always
survives. -/
def legacyFinally {α : Type} (body : Except Str α) (r : RmResult) : Except Str α :=
  match cleanupTemp r with
  | Except.ok _ => body
  | Except.error e => Except.error e

/-- Claim C7 fails as stated: in the scripts-based npm installer a failed
removal of the temporary workspace propagates out of the finally block and
replaces a successful installation outcome with an error. -/
theorem C7_counterexample :
    mainFinally (Except.ok ((("installed").data)))
        (RmResult.failed ((("EACCES: permission denied").data))) =
      Except.error ((("EACCES: permission denied").data))
    ∧ mainFinally (Except.ok ((("installed").data)))
        (RmResult.failed ((("EACCES: permission denied").data))) ≠
      Except.ok ((("installed").data)) := by
  exact ⟨rfl, fun h => Except.noConfusion h⟩

/-- Claim C7 (amended): in the legacy npm installer and the Deno installer a
removal failure is caught and ignored locally (not logged) and never changes
the attempt's outcome; in the scripts-based npm installer the finally block
has no catch, so a removal failure propagates and replaces the outcome. -/
theorem C7_amended :
    (∀ (body : Except Str Str) (r : RmResult), legacyFinally body r = body)
    ∧ (∀ (body : Except Str Str) (m : Str),
        mainFinally body (RmResult.failed m) = Except.error m) := by
  constructor
  · intro body r
    cases r <;> rfl
  · intro body m
    rfl

/- ### External extraction tools — part_005 `runCommand` and the Deno
   installer's `runTar` -/

/-- What a spawned extraction tool did: its exit code and the text it wrote
to standard error (with `stdio: "inherit"` that text goes to the terminal
and is never captured by the parent). -/
structure SpawnOutcome : Type where
  exitCode : Nat
  stderrText : Str

/-- `runCommand` from the scripts extractor: resolves on exit code 0 and
otherwise rejects with an error naming the command and the exit code. -/
def runCommand (command : Str) (o : SpawnOutcome) : Except Str Unit :=
  if o.exitCode = 0 then Except.ok ()
  else
    Except.error (command ++ ((" exited with code ").data)
      ++ ((toString o.exitCode).data))

/-- Result of a Deno `Command.output()` call: success flag and captured,
decoded standard error. -/
structure CommandOutput : Type where
  success : Bool
  stderrText : Str

/-- `runTar` from the Deno installer (the unzip and Expand-Archive branches
are identical): on failure it throws the captured standard-error text. -/
def runTar (out : CommandOutput) : Except Str Unit :=
  if out.success then Except.ok () else Except.error out.stderrText

/-- Claim C9 fails as stated: when tar exits 2 having written a diagnostic
to standard error, the scripts extractor's error carries only the command
name and exit code — the standard-error text does not occur in it. -/
theorem C9_counterexample :
    runCommand ((("tar").data))
        { exitCode := 2,
          stderrText := (("tar: Error is not recoverable: exiting now").data) } =
      Except.error ((("tar exited with code 2").data))
    ∧ containsSub ((("tar exited with code 2").data))
        ((("tar: Error is not recoverable: exiting now").data)) = false := by
  exact ⟨rfl, rfl⟩

/-- Claim C9 (amended): every non-zero extraction-tool exit surfaces as a
failure and a zero exit as success, never silently ignored; the Deno
installer's error carries the captured standard-error text, while the
scripts extractor's error names the command and exit code (standard error is
inherited by the terminal, not captured). -/
theorem C9_amended :
    (∀ (cmd : Str) (o : SpawnOutcome), o.exitCode ≠ 0 →
        runCommand cmd o =
          Except.error (cmd ++ ((" exited with code ").data)
            ++ ((toString o.exitCode).data)))
    ∧ (∀ (cmd : Str) (o : SpawnOutcome), o.exitCode = 0 →
        runCommand cmd o = Except.ok ())
    ∧ (∀ out : CommandOutput, out.success = false →
        runTar out = Except.error out.stderrText)
    ∧ (∀ out : CommandOutput, out.success = true → runTar out = Except.ok ()) := by
  refine ⟨fun cmd o h => ?_, fun cmd o h => ?_, fun out h => ?_, fun out h => ?_⟩
  · simp [runCommand, h]
  · simp [runCommand, h]
  · simp [runTar, h]
  · simp [runTar, h]

/-- A concrete failing tar invocation, used by the C9 witness. -/
def tarOutcomeW : SpawnOutcome :=
  { exitCode := 2, stderrText := (("boom").data) }

/-- A concrete failing unzip invocation, used by the C9 witness. -/
def unzipOutputW : CommandOutput :=
  { success := false, stderrText := (("unzip: cannot find zipfile").data) }

/-- Witness for C9_amended: tar exiting 2 yields the command/exit-code
error, and a failing unzip in the Deno installer yields its stderr text. -/
theorem C9_amended_witness :
    runCommand ((("tar").data)) tarOutcomeW =
      Except.error ((("tar").data) ++ ((" exited with code ").data)
        ++ ((toString tarOutcomeW.exitCode).data))
    ∧ runTar unzipOutputW = Except.error unzipOutputW.stderrText :=
  ⟨C9_amended.1 ((("tar").data)) tarOutcomeW (by decide),
    C9_amended.2.2.1 unzipOutputW rfl⟩

/- ### Binary discovery after extraction — the scripts extractor's
   `locateBinary` and the legacy npm installer's top-level scan -/

/-- A directory entry of the extracted tree: a regular file or a
subdirectory with its own entries. The list order models the order in which
`readdir` reports entries. -/
inductive Entry : Type where
  | file (s : Str)
  | dir (s : Str) (children : List Entry)

/-- The name of an entry as reported by `readdir`. -/
def entryName : Entry → Str
  | Entry.file n => n
  | Entry.dir n _ => n

/-- `locateBinary` from the scripts extractor: walk the entries in order,
return the first regular file whose name starts with "curlpit", and recurse
into each directory before moving on. No entry is excluded. -/
def locateBinary (dirPath : Str) : List Entry → Option Str
  | [] => none
  | Entry.file n :: rest =>
      if startsWithStr n (("curlpit").data) then some (pathJoin dirPath n)
      else locateBinary dirPath rest
  | Entry.dir n children :: rest =>
      match locateBinary (pathJoin dirPath n) children with
      | some p => some p
      | none => locateBinary dirPath rest

/-- The end of `extractArchive` from the scripts extractor: after the
format-specific tool has run, locate the binary or fail. -/
def extractLocate (tempDir : Str) (entries : List Entry) : Except Str Str :=
  match locateBinary tempDir entries with
  | some p => Except.ok p
  | none => Except.error ((("Archive did not contain a curlpit binary").data))

/-- All regular files of the tree in depth-first order, as
(full path, entry name) pairs — the specification-side reference order for
the discovery walk. -/
def dfsFiles (dirPath : Str) : List Entry → List (Str × Str)
  | [] => []
  | Entry.file n :: rest => (pathJoin dirPath n, n) :: dfsFiles dirPath rest
  | Entry.dir n children :: rest =>
      dfsFiles (pathJoin dirPath n) children ++ dfsFiles dirPath rest

/-- The binary-discovery loop of the legacy npm installer (part_002):
scan only the top level, skip the entry whose name equals the archive's base
name, skip names without the "curlpit" prefix, and return the first
remaining entry that is a regular file. -/
def legacyLocate (tempDir archiveBase : Str) : List Entry → Option Str
  | [] => none
  | e :: rest =>
      if entryName e = archiveBase then legacyLocate tempDir archiveBase rest
      else if startsWithStr (entryName e) (("curlpit").data) = false then
        legacyLocate tempDir archiveBase rest
      else
        match e with
        | Entry.file n => some (pathJoin tempDir n)
        | Entry.dir _ _ => legacyLocate tempDir archiveBase rest

/-- `find?` over an append scans the left part first. -/
theorem findAppendOpt {α : Type} (p : α → Bool) (l1 l2 : List α) :
    List.find? p (l1 ++ l2) =
      match List.find? p l1 with
      | some x => some x
      | none => List.find? p l2 := by
  induction l1 with
  | nil => simp
  | cons a l ih =>
      cases hpa : p a <;> simp [List.find?, hpa, ih]

/-- The discovery walk returns exactly the first depth-first regular file
whose name starts with "curlpit". -/
theorem locateBinary_eq_find (dirPath : Str) (es : List Entry) :
    locateBinary dirPath es =
      Option.map Prod.fst
        (List.find? (fun pn => startsWithStr pn.2 (("curlpit").data))
          (dfsFiles dirPath es)) := by
  induction dirPath, es using locateBinary.induct with
  | case1 d => simp [locateBinary, dfsFiles]
  | case2 d n rest h =>
      simp [locateBinary, dfsFiles, List.find?, h]
  | case3 d n rest h ih =>
      simp [locateBinary, dfsFiles, List.find?, h, ih]
  | case4 d n children rest p hrec ih =>
      rw [hrec] at ih
      simp only [locateBinary, hrec, dfsFiles]
      rw [findAppendOpt]
      cases hF : List.find? (fun pn => startsWithStr pn.2 (("curlpit").data))
          (dfsFiles (pathJoin d n) children) with
      | none => rw [hF] at ih; exact absurd ih (by simp)
      | some pair =>
          rw [hF] at ih
          simpa using ih
  | case5 d n children rest hrec ih1 ih2 =>
      rw [hrec] at ih1
      have hF : List.find? (fun pn => startsWithStr pn.2 (("curlpit").data))
          (dfsFiles (pathJoin d n) children) = none := by
        cases hF2 : List.find? (fun pn => startsWithStr pn.2 (("curlpit").data))
            (dfsFiles (pathJoin d n) children) with
        | none => rfl
        | some pair => rw [hF2] at ih1; exact absurd ih1 (by simp)
      simp only [locateBinary, hrec, dfsFiles]
      rw [findAppendOpt, hF]
      simpa using ih2

/-- Claim C2 fails as stated: with the downloaded archive sitting in the
scratch directory (as the npm installer arranges) and reported first by
`readdir`, the discovery walk returns the archive file itself — it is not
excluded from candidacy — rather than the extracted binary nested in the
subdirectory. -/
theorem C2_counterexample :
    locateBinary ((("/tmp/scratch").data))
        [Entry.file ((("curlpit-x86_64-unknown-linux-gnu.tar.xz").data)),
         Entry.dir ((("curlpit-x86_64-unknown-linux-gnu").data))
           [Entry.file ((("curlpit").data))]] =
      some (pathJoin ((("/tmp/scratch").data))
        ((("curlpit-x86_64-unknown-linux-gnu.tar.xz").data)))
    ∧ pathJoin ((("/tmp/scratch").data))
        ((("curlpit-x86_64-unknown-linux-gnu.tar.xz").data)) ≠
      pathJoin (pathJoin ((("/tmp/scratch").data))
        ((("curlpit-x86_64-unknown-linux-gnu").data))) ((("curlpit").data)) := by
  constructor
  · simp [locateBinary, startsWithStr]
  · decide

/-- Claim C2 (amended): the scripts extractor's discovery is a recursive
depth-first walk returning the first regular file whose name starts with
"curlpit", descending into subdirectories, with no exclusion of the archive
file; when the tree has no such file, extraction fails with the "archive did
not contain" error. Exclusion of the archive exists only in the legacy npm
installer's scan, which in turn never descends into subdirectories. -/
theorem C2_amended :
    (∀ (d : Str) (es : List Entry),
        locateBinary d es =
          Option.map Prod.fst
            (List.find? (fun pn => startsWithStr pn.2 (("curlpit").data))
              (dfsFiles d es)))
    ∧ (∀ (d : Str) (es : List Entry), locateBinary d es = none →
        extractLocate d es =
          Except.error ((("Archive did not contain a curlpit binary").data)))
    ∧ (∀ (t a : Str) (es : List Entry),
        legacyLocate t a (Entry.file a :: es) = legacyLocate t a es)
    ∧ (∀ (t a n : Str) (ch es : List Entry),
        legacyLocate t a (Entry.dir n ch :: es) = legacyLocate t a es) := by
  refine ⟨locateBinary_eq_find, fun d es h => ?_, fun t a es => ?_, fun t a n ch es => ?_⟩
  · simp [extractLocate, h]
  · simp [legacyLocate, entryName]
  · by_cases h1 : n = a <;>
      by_cases h2 : startsWithStr n (("curlpit").data) = false <;>
      simp [legacyLocate, entryName, h1, h2]

/-- Witness for C2_amended: an extracted tree holding only documentation
has no "curlpit"-prefixed file, so extraction reports the content error. -/
theorem C2_amended_witness :
    extractLocate ((("/tmp/scratch").data))
        [Entry.dir ((("docs").data)) [Entry.file ((("README.md").data))]] =
      Except.error ((("Archive did not contain a curlpit binary").data)) :=
  C2_amended.2.1 ((("/tmp/scratch").data))
    [Entry.dir ((("docs").data)) [Entry.file ((("README.md").data))]]
    (by simp [locateBinary, startsWithStr])
